import Mathlib

/-!
Verification of the URL_Classification repository (src/app.py), a Streamlit
front end that validates the shape of a URL with a regular expression and
asks a remote prediction service whether the URL is malicious.

The development has three layers.

First, a small executable regular-expression engine over `Char` with
character classes given as boolean predicates.  The engine is a Brzozowski
derivative matcher; `RMatch` is the usual inductive language semantics and
`reMatch_iff` proves the matcher sound and complete for it.  The pattern of
`is_valid_url` in src/app.py contains no capture group and no backreference,
so Python's backtracking `re.match` succeeds on it exactly when the string
(up to the `$` rule recalled below) belongs to the regular language of the
pattern; the derivative matcher therefore models `re.match` faithfully.

Second, the concrete pattern of `is_valid_url` (src/app.py lines 22-30),
translated class by class, with `re.IGNORECASE` reflected in the classes and
in case-insensitive literals.  Python's `$` (without `re.MULTILINE`) matches
at the end of the string or just before a newline that is the last
character, which is why `is_valid_url` below tries the whole string and,
when the string ends in a newline, the string without it.

Third, the prediction flow of `prediction_page` (src/app.py lines 66-111)
and the page dispatch of `main` (lines 116-130).  The HTTP world is an
oracle value of type `HttpResult`: either the `requests.post` call raised
(carrying `str(e)`), or a response arrived with a status code, a body text,
and the result of `response.json()` (`Except.error` models the JSON decoder
raising).  JSON values are modeled by `PyVal`; Python floats are modeled as
exact rationals, which is faithful for every value the claims touch.
Rendering calls (`st.error`, `st.json`, ...) and the outgoing POST are
collected in a list of `Act` actions, so that "presented to the user" and
"issues a network call" are statements about that list.
-/

namespace URLClassif

/-! ### A regular-expression engine with character classes -/

/-- Regular expressions over `Char`: the empty language, the empty string, a
character class given as a boolean predicate, concatenation, alternation and
Kleene star.  This is exactly the fragment the pattern in src/app.py uses
(no groups are captured, no backreference occurs). -/
inductive RE : Type where
  | fail : RE
  | eps : RE
  | cls : (Char → Bool) → RE
  | cat : RE → RE → RE
  | alt : RE → RE → RE
  | star : RE → RE

/-- Language membership for `RE`: the usual inductive semantics.  The star
constructor consumes a nonempty chunk, which loses no generality and keeps
the derivative proofs structural. -/
inductive RMatch : RE → List Char → Prop where
  | eps : RMatch .eps []
  | cls {p : Char → Bool} {c : Char} : p c = true → RMatch (.cls p) [c]
  | cat {r₁ r₂ : RE} {s₁ s₂ : List Char} :
      RMatch r₁ s₁ → RMatch r₂ s₂ → RMatch (.cat r₁ r₂) (s₁ ++ s₂)
  | altL {r₁ r₂ : RE} {s : List Char} : RMatch r₁ s → RMatch (.alt r₁ r₂) s
  | altR {r₁ r₂ : RE} {s : List Char} : RMatch r₂ s → RMatch (.alt r₁ r₂) s
  | starNil {r : RE} : RMatch (.star r) []
  | starCons {r : RE} {c : Char} {s₁ s₂ : List Char} :
      RMatch r (c :: s₁) → RMatch (.star r) s₂ → RMatch (.star r) ((c :: s₁) ++ s₂)

/-- Does the regular expression accept the empty string? -/
def nullable : RE → Bool
  | .fail => false
  | .eps => true
  | .cls _ => false
  | .cat r₁ r₂ => nullable r₁ && nullable r₂
  | .alt r₁ r₂ => nullable r₁ || nullable r₂
  | .star _ => true

/-- Smart alternation: drops `fail` branches so derivatives stay small. -/
def mkAlt : RE → RE → RE
  | .fail, r₂ => r₂
  | r₁, .fail => r₁
  | r₁, r₂ => .alt r₁ r₂

/-- Smart concatenation: collapses `fail` and `eps` so derivatives stay small. -/
def mkCat : RE → RE → RE
  | .fail, _ => .fail
  | _, .fail => .fail
  | .eps, r₂ => r₂
  | r₁, .eps => r₁
  | r₁, r₂ => .cat r₁ r₂

/-- Brzozowski derivative of a regular expression by one character. -/
def deriv : RE → Char → RE
  | .fail, _ => .fail
  | .eps, _ => .fail
  | .cls p, c => if p c then .eps else .fail
  | .cat r₁ r₂, c =>
      if nullable r₁ then mkAlt (mkCat (deriv r₁ c) r₂) (deriv r₂ c)
      else mkCat (deriv r₁ c) r₂
  | .alt r₁ r₂, c => mkAlt (deriv r₁ c) (deriv r₂ c)
  | .star r, c => mkCat (deriv r c) (.star r)

/-- The derivative matcher: accept `s` iff the iterated derivative is nullable. -/
def reMatch (r : RE) (s : List Char) : Bool :=
  nullable (s.foldl deriv r)

/-! ### The URL pattern of src/app.py lines 22-30

The pattern, compiled with `re.IGNORECASE`:

    ^(?:http|ftp)s?://
    (?:(?:[A-Z0-9](?:[A-Z0-9-]{0,61}[A-Z0-9])?\.)+(?:[A-Z]{2,6}\.?|[A-Z0-9-]{2,}\.?)|
    localhost|
    \d{1,3}\.\d{1,3}\.\d{1,3}\.\d{1,3})
    (?::\d+)?
    (?:/?|[/?]\S+)$

`\d` is modeled as the ASCII digits and `\s` as Python's whitespace set for
`str` patterns (the six ASCII whitespace characters plus the Unicode
whitespace code points); the claims only exercise ASCII inputs, where both
are exact. -/

/-- Zero or one occurrence, the regex `r?`. -/
def opt (r : RE) : RE := .alt .eps r

/-- One or more occurrences, the regex `r+`. -/
def rplus (r : RE) : RE := .cat r (.star r)

/-- At most `n` occurrences, the regex `r\x7b0,n\x7d`. -/
def upTo (r : RE) : Nat → RE
  | 0 => .eps
  | n + 1 => .alt .eps (.cat r (upTo r n))

/-- A literal character under `re.IGNORECASE`: the input character agrees
with the pattern character up to ASCII case. -/
def litc (a : Char) : RE := .cls (fun c => c.toLower == a.toLower)

/-- A literal string of case-insensitive characters. -/
def chainRE : List Char → RE
  | [] => .eps
  | c :: cs => .cat (litc c) (chainRE cs)

/-- A literal string under `re.IGNORECASE`. -/
def strRE (s : String) : RE := chainRE s.data

/-- The class `[A-Z]` of the pattern; `re.IGNORECASE` makes it accept both
cases. -/
def letterAZ (c : Char) : Bool := ('A' ≤ c && c ≤ 'Z') || ('a' ≤ c && c ≤ 'z')

/-- The class `\d` (ASCII digits). -/
def digit09 (c : Char) : Bool := '0' ≤ c && c ≤ '9'

/-- The class `[A-Z0-9]` of the pattern, up to case. -/
def alnumAZ09 (c : Char) : Bool := letterAZ c || digit09 c

/-- The class `[A-Z0-9-]` of the pattern, up to case. -/
def alnumDash (c : Char) : Bool := alnumAZ09 c || c == '-'

/-- The class `[/?]` of the pattern. -/
def slashQuery (c : Char) : Bool := c == '/' || c == '?'

/-- The characters Python's `\s` matches in a `str` pattern: space, the five
ASCII control whitespace characters, the C1 separators and NEL/NBSP, and the
Unicode space code points. -/
def pySpaceChars : List Char :=
  [' ', '\x09', '\x0a', '\x0b', '\x0c', '\x0d',
   '\x1c', '\x1d', '\x1e', '\x1f', '\x85', '\xa0',
   ' ', ' ', ' ', ' ', ' ', ' ', ' ',
   ' ', ' ', ' ', ' ', ' ',
   ' ', ' ', ' ', ' ', '　']

/-- Python's `\s` on a `str` pattern. -/
def pySpace (c : Char) : Bool := decide (c ∈ pySpaceChars)

/-- The class `\S` of the pattern. -/
def nonSpace (c : Char) : Bool := ! pySpace c

/-- The scheme part `(?:http|ftp)s?://`. -/
def schemeRE : RE :=
  .cat (.alt (strRE "http") (strRE "ftp")) (.cat (opt (litc 's')) (strRE "://"))

/-- One domain label with its dot: `[A-Z0-9](?:[A-Z0-9-]{0,61}[A-Z0-9])?\.`. -/
def labelRE : RE :=
  .cat (.cls alnumAZ09)
    (.cat (opt (.cat (upTo (.cls alnumDash) 61) (.cls alnumAZ09))) (litc '.'))

/-- The final domain token `(?:[A-Z]{2,6}\.?|[A-Z0-9-]{2,}\.?)`. -/
def tldRE : RE :=
  .alt
    (.cat (.cls letterAZ) (.cat (.cls letterAZ) (.cat (upTo (.cls letterAZ) 4) (opt (litc '.')))))
    (.cat (.cls alnumDash) (.cat (.cls alnumDash) (.cat (.star (.cls alnumDash)) (opt (litc '.')))))

/-- The dotted-hostname alternative of the host group. -/
def domainRE : RE := .cat (rplus labelRE) tldRE

/-- One dotted-quad group `\d{1,3}`. -/
def dgroupRE : RE := .cat (.cls digit09) (upTo (.cls digit09) 2)

/-- The IPv4 alternative `\d{1,3}\.\d{1,3}\.\d{1,3}\.\d{1,3}`. -/
def ipv4RE : RE :=
  .cat dgroupRE (.cat (litc '.')
    (.cat dgroupRE (.cat (litc '.')
      (.cat dgroupRE (.cat (litc '.') dgroupRE)))))

/-- The host group: dotted hostname, `localhost`, or dotted quad. -/
def hostRE : RE := .alt domainRE (.alt (strRE "localhost") ipv4RE)

/-- The optional port `(?::\d+)?`. -/
def portRE : RE := opt (.cat (litc ':') (rplus (.cls digit09)))

/-- Everything before the trailing path group: scheme, host and port. -/
def hostPortRE : RE := .cat schemeRE (.cat hostRE portRE)

/-- The trailing path group `(?:/?|[/?]\S+)`. -/
def trailRE : RE := .alt (opt (litc '/')) (.cat (.cls slashQuery) (rplus (.cls nonSpace)))

/-- The whole pattern body (everything between `^` and `$`). -/
def urlRE : RE := .cat hostPortRE trailRE

/-- Model of `is_valid_url` (src/app.py lines 22-30): `re.match` anchors at
the start, and the final `$` (no `re.MULTILINE`) matches at the end of the
string or just before a newline that is the string's last character, so the
body must consume the whole string or the whole string minus a final
newline. -/
def is_valid_url (url : String) : Bool :=
  reMatch urlRE url.data ||
  (url.data.getLast? == some '\n' && reMatch urlRE url.data.dropLast)

/-! ### The prediction flow of src/app.py lines 66-111

`requests.post` either raises (modeled by `HttpResult.transportError`
carrying `str(e)`) or returns a response with `status_code`, `text`, and a
`json()` method that either produces a Python value or raises (modeled by
`Except String PyVal`).  All exceptions raised inside the `try` of lines
88-98 — the transport failure, the JSON decoder, and the `AttributeError`
from `.get` on a non-dict — are caught by the `except` on line 96. -/

/-- The fixed Space endpoint, src/app.py line 17. -/
def SPACE_API_URL : String := "https://nayds004-url-predictor-space.hf.space/predict"

/-- A Python value as produced by `response.json()`.  Python floats are
modeled as exact rationals: every number the claims exercise (0, 1, 0.0,
1.0, 2) is exactly representable, and Python's `==` between an int and a
float compares exact values. -/
inductive PyVal : Type where
  | pyNone : PyVal
  | pyBool : Bool → PyVal
  | pyInt : Int → PyVal
  | pyFloat : ℚ → PyVal
  | pyStr : String → PyVal
  | pyList : List PyVal → PyVal
  | pyDict : List (String × PyVal) → PyVal

/-- Python's `==` between a JSON-decoded value and an int literal: `bool` is
a subclass of `int` (`True == 1`, `False == 0`), ints compare by value,
floats compare by exact numeric value (`1.0 == 1`), and every other type
(including `str`: `"1" != 1`) compares unequal. -/
def pyEqInt : PyVal → Int → Bool
  | .pyBool b, k => (if b then (1 : Int) else 0) == k
  | .pyInt n, k => n == k
  | .pyFloat q, k => decide (q = (k : ℚ))
  | _, _ => false

/-- The name of a `PyVal`'s Python type, as it appears in error messages. -/
def pyTypeName : PyVal → String
  | .pyNone => "NoneType"
  | .pyBool _ => "bool"
  | .pyInt _ => "int"
  | .pyFloat _ => "float"
  | .pyStr _ => "str"
  | .pyList _ => "list"
  | .pyDict _ => "dict"

/-- Python's `value.get(key, default)`: on a dict, look the key up with the
default; on any other type, raise `AttributeError` (modeled as `.error`
carrying `str(e)`), since only `dict` has a `get` attribute. -/
def pyGet (v : PyVal) (key : String) (dflt : PyVal) : Except String PyVal :=
  match v with
  | .pyDict fields => .ok ((fields.lookup key).getD dflt)
  | _ => .error ("'" ++ pyTypeName v ++ "' object has no attribute 'get'")

/-- The HTTP world seen by one `requests.post` call: the call raised, or a
response arrived with a status code, a body text, and the outcome of
`response.json()` (`.error` models the decoder raising on a non-JSON
body). -/
inductive HttpResult : Type where
  | transportError : String → HttpResult
  | response : Nat → String → Except String PyVal → HttpResult

/-- The outcome taxonomy of spec §4.2: the three user-facing verdicts, the
caught-exception branch, and the non-200-status branch. -/
inductive Outcome : Type where
  | Malicious : Outcome
  | Benign : Outcome
  | Unavailable : Outcome
  | RequestFailed : String → Outcome
  | ApiError : Nat → String → Outcome
deriving DecidableEq

/-- The outcome of one submission, read off src/app.py lines 88-108.  The
submitted URL is a parameter because the spec's contract is
`predict(url) -> Outcome`; the source never consults it when classifying
(it only travels in the POST body and in the echo), which is exactly what
claim C6 is about. -/
def predict (url_input : String) (http : HttpResult) : Outcome :=
  match http with
  | .transportError e => .RequestFailed e
  | .response statusCode text jsonBody =>
    if statusCode == 200 then
      match jsonBody with
      | .error e => .RequestFailed e
      | .ok result =>
        match pyGet result "prediction" .pyNone with
        | .error e => .RequestFailed e
        | .ok prediction =>
          if pyEqInt prediction 1 then .Malicious
          else if pyEqInt prediction 0 then .Benign
          else .Unavailable
    else .ApiError statusCode text

/-- One observable effect of a page run: a Streamlit rendering call, or the
outgoing HTTP POST (`Act.post target url` with the JSON body
`\x7b"url": url\x7d`). -/
inductive Act : Type where
  | stTitle : String → Act
  | stSubheader : String → Act
  | stMarkdown : String → Act
  | stInfo : String → Act
  | stHeader : String → Act
  | stCaption : String → Act
  | stToast : String → Act
  | stError : String → Act
  | stSuccess : String → Act
  | stWarning : String → Act
  | stJson : String → Act
  | post : String → String → Act
deriving DecidableEq

/-- The body of the `if st.button(...)` block, src/app.py lines 78-111: the
POST is issued unconditionally (the `is_valid_url` gate on lines 80-83 is
commented out), then the `try`/`except` of lines 88-98 renders and returns
early on any failure, and on success the three-way verdict and the echo of
the submitted URL are rendered. -/
def analyze_flow (url_input : String) (http : HttpResult) : List Act :=
  Act.post SPACE_API_URL url_input ::
  match http with
  | .transportError e => [.stError ("Request failed: " ++ e)]
  | .response statusCode text jsonBody =>
    if statusCode == 200 then
      match jsonBody with
      | .error e => [.stError ("Request failed: " ++ e)]
      | .ok result =>
        match pyGet result "prediction" .pyNone with
        | .error e => [.stError ("Request failed: " ++ e)]
        | .ok prediction =>
          [.stToast "Analysis complete!", .stMarkdown "### Result"] ++
          (if pyEqInt prediction 1 then [.stError "🚨 **MALICIOUS URL**"]
           else if pyEqInt prediction 0 then [.stSuccess "✅ **BENIGN URL**"]
           else [.stWarning "⚠️ Prediction unavailable."]) ++
          [.stMarkdown "### Submitted URL", .stJson url_input]
    else [.stError ("API Error: " ++ toString statusCode ++ " - " ++ text)]

/-- The prediction page, src/app.py lines 66-111: static chrome, then the
submission flow only when the button was clicked this run. -/
def prediction_page (clicked : Bool) (url_input : String) (http : HttpResult) : List Act :=
  [Act.stTitle "🔗 URL Safety Checker",
   Act.stSubheader "Enter a URL to check if it’s safe.",
   Act.stMarkdown "---"] ++
  if clicked then analyze_flow url_input http else []

/-- The info page, src/app.py lines 46-61; the date string is a parameter. -/
def info_page (todayStr : String) : List Act :=
  [Act.stTitle "🛡️ SafeURL Predictor: Project Overview",
   Act.stMarkdown "<div style=\"background-color: #f0f8ff; padding: 20px; border-radius: 10px; border-left: 5px solid #1e90ff;\"> ... </div>",
   Act.stSubheader "🎓 Student Information",
   Act.stInfo "**Name:** Chinedu Egbuna",
   Act.stInfo "**Course:** Data Science Project",
   Act.stInfo ("**Date:** " ++ todayStr)]

/-- The two navigable views; `st.session_state.page` starts at
`"Project Info"` (src/app.py line 118) and each run overwrites it with the
sidebar radio selection (line 123). -/
inductive Page : Type where
  | projectInfo : Page
  | urlPrediction : Page
deriving DecidableEq

/-- The initial navigation state, src/app.py lines 117-118. -/
def pageInit : Page := .projectInfo

/-- One run of `main` (src/app.py lines 116-130): the sidebar renders, the
session state becomes the radio selection, and the selected page renders.
The result is the new session state and the list of effects of the run. -/
def main (sel : Page) (clicked : Bool) (url_input : String) (http : HttpResult)
    (todayStr yearStr : String) : Page × List Act :=
  (sel,
   [Act.stHeader "Navigation", Act.stMarkdown "---",
    Act.stCaption ("App Version 1.0 | " ++ yearStr)] ++
   (if sel == .projectInfo then info_page todayStr
    else prediction_page clicked url_input http))

/-! ### Auxiliary definitions for the claims -/

/-- The numeric value Python's `==` sees in a JSON-decoded value, following
the spec's outcome table: booleans count as 0/1 (`bool` is a subclass of
`int`), ints and floats by their exact numeric value, and `None`, strings,
lists and dicts carry no numeric value.  This is the spec-side yardstick the
amended claim C1 compares the code against. -/
def pyNumVal : PyVal → Option ℚ
  | .pyBool b => some (if b then 1 else 0)
  | .pyInt n => some ((n : ℚ))
  | .pyFloat q => some q
  | _ => none

/-- A 1-to-3-digit dotted-quad group, as the claim describes one. -/
def dottedGroup (g : List Char) : Prop :=
  1 ≤ g.length ∧ g.length ≤ 3 ∧ ∀ c ∈ g, digit09 c = true

/-- The C0 control characters together with DEL: what the claim's "control
characters" denotes (every one of them, and in particular the newline, is
invisible in a rendered URL). -/
def ctlChars : List Char :=
  ['\x00', '\x01', '\x02', '\x03', '\x04', '\x05', '\x06', '\x07',
   '\x08', '\x09', '\x0a', '\x0b', '\x0c', '\x0d', '\x0e', '\x0f',
   '\x10', '\x11', '\x12', '\x13', '\x14', '\x15', '\x16', '\x17',
   '\x18', '\x19', '\x1a', '\x1b', '\x1c', '\x1d', '\x1e', '\x1f', '\x7f']

/-- Is a character a control character? -/
def ctlChar (c : Char) : Bool := decide (c ∈ ctlChars)

/-- Every character class of a regular expression implies `P`: then every
character of a matched string satisfies `P`. -/
def clsBound (P : Char → Bool) : RE → Prop
  | .fail => True
  | .eps => True
  | .cls p => ∀ c, p c = true → P c = true
  | .cat r₁ r₂ => clsBound P r₁ ∧ clsBound P r₂
  | .alt r₁ r₂ => clsBound P r₁ ∧ clsBound P r₂
  | .star r => clsBound P r


/-! ### Properties of the engine -/

theorem rmatch_fail_elim {s : List Char} (h : RMatch .fail s) : False := nomatch h

theorem rmatch_eps_iff {s : List Char} : RMatch .eps s ↔ s = [] := by
  constructor
  · intro h
    cases h
    rfl
  · rintro rfl
    exact RMatch.eps

theorem rmatch_cls_iff {p : Char → Bool} {s : List Char} :
    RMatch (.cls p) s ↔ ∃ c, s = [c] ∧ p c = true := by
  constructor
  · intro h
    cases h with
    | cls hc => exact ⟨_, rfl, hc⟩
  · rintro ⟨c, rfl, hc⟩
    exact RMatch.cls hc

theorem rmatch_cat_iff {r₁ r₂ : RE} {s : List Char} :
    RMatch (.cat r₁ r₂) s ↔ ∃ s₁ s₂, s = s₁ ++ s₂ ∧ RMatch r₁ s₁ ∧ RMatch r₂ s₂ := by
  constructor
  · intro h
    cases h with
    | cat h₁ h₂ => exact ⟨_, _, rfl, h₁, h₂⟩
  · rintro ⟨s₁, s₂, rfl, h₁, h₂⟩
    exact RMatch.cat h₁ h₂

theorem rmatch_alt_iff {r₁ r₂ : RE} {s : List Char} :
    RMatch (.alt r₁ r₂) s ↔ RMatch r₁ s ∨ RMatch r₂ s := by
  constructor
  · intro h
    cases h with
    | altL h => exact Or.inl h
    | altR h => exact Or.inr h
  · rintro (h | h)
    · exact RMatch.altL h
    · exact RMatch.altR h

theorem rmatch_star_cons_iff {r : RE} {c : Char} {s : List Char} :
    RMatch (.star r) (c :: s) ↔
      ∃ s₁ s₂, s = s₁ ++ s₂ ∧ RMatch r (c :: s₁) ∧ RMatch (.star r) s₂ := by
  constructor
  · intro h
    cases h with
    | starCons h₁ h₂ =>
      exact ⟨_, _, rfl, h₁, h₂⟩
  · rintro ⟨s₁, s₂, rfl, h₁, h₂⟩
    exact RMatch.starCons h₁ h₂

/-- Appending any chunk of `r` in front of a star match, also an empty one. -/
theorem rmatch_star_append {r : RE} {s₁ s₂ : List Char}
    (h₁ : RMatch r s₁) (h₂ : RMatch (.star r) s₂) : RMatch (.star r) (s₁ ++ s₂) := by
  cases s₁ with
  | nil => simpa using h₂
  | cons c t => exact RMatch.starCons h₁ h₂

theorem mkAlt_iff {r₁ r₂ : RE} {s : List Char} :
    RMatch (mkAlt r₁ r₂) s ↔ RMatch (.alt r₁ r₂) s := by
  have hl : ∀ t : RE, RMatch (.alt .fail t) s ↔ RMatch t s := by
    intro t
    rw [rmatch_alt_iff]
    exact ⟨fun h => h.resolve_left (fun h' => rmatch_fail_elim h'), Or.inr⟩
  have hr : ∀ t : RE, RMatch (.alt t .fail) s ↔ RMatch t s := by
    intro t
    rw [rmatch_alt_iff]
    exact ⟨fun h => h.resolve_right (fun h' => rmatch_fail_elim h'), Or.inl⟩
  cases r₁ <;> cases r₂ <;> first | rfl | exact (hl _).symm | exact (hr _).symm

theorem mkCat_iff {r₁ r₂ : RE} {s : List Char} :
    RMatch (mkCat r₁ r₂) s ↔ RMatch (.cat r₁ r₂) s := by
  have hfail₁ : ∀ t : RE, ¬ RMatch (.cat .fail t) s := by
    intro t h
    rcases rmatch_cat_iff.mp h with ⟨s₁, s₂, _, h₁, _⟩
    exact rmatch_fail_elim h₁
  have hfail₂ : ∀ t : RE, ¬ RMatch (.cat t .fail) s := by
    intro t h
    rcases rmatch_cat_iff.mp h with ⟨s₁, s₂, _, _, h₂⟩
    exact rmatch_fail_elim h₂
  have heps₁ : ∀ t : RE, RMatch (.cat .eps t) s ↔ RMatch t s := by
    intro t
    constructor
    · intro h
      rcases rmatch_cat_iff.mp h with ⟨s₁, s₂, rfl, h₁, h₂⟩
      rcases rmatch_eps_iff.mp h₁ with rfl
      simpa using h₂
    · intro h
      simpa using RMatch.cat RMatch.eps h
  have heps₂ : ∀ t : RE, RMatch (.cat t .eps) s ↔ RMatch t s := by
    intro t
    constructor
    · intro h
      rcases rmatch_cat_iff.mp h with ⟨s₁, s₂, rfl, h₁, h₂⟩
      rcases rmatch_eps_iff.mp h₂ with rfl
      simpa using h₁
    · intro h
      simpa using RMatch.cat h RMatch.eps
  cases r₁ <;> cases r₂ <;>
    simp only [mkCat] <;>
    first
      | rfl
      | (exact iff_of_false (fun h => rmatch_fail_elim h) (hfail₁ _))
      | (exact iff_of_false (fun h => rmatch_fail_elim h) (hfail₂ _))
      | (exact (heps₁ _).symm)
      | (exact (heps₂ _).symm)

theorem nullable_iff {r : RE} : nullable r = true ↔ RMatch r [] := by
  induction r with
  | fail => simp [nullable]; intro h; exact rmatch_fail_elim h
  | eps => simp [nullable, rmatch_eps_iff]
  | cls p =>
    simp [nullable, rmatch_cls_iff]
  | cat r₁ r₂ ih₁ ih₂ =>
    simp only [nullable, Bool.and_eq_true, ih₁, ih₂]
    constructor
    · rintro ⟨h₁, h₂⟩
      simpa using RMatch.cat h₁ h₂
    · intro h
      rcases rmatch_cat_iff.mp h with ⟨s₁, s₂, hs, h₁, h₂⟩
      rcases List.append_eq_nil.mp hs.symm with ⟨rfl, rfl⟩
      exact ⟨h₁, h₂⟩
  | alt r₁ r₂ ih₁ ih₂ =>
    simp only [nullable, Bool.or_eq_true, ih₁, ih₂, rmatch_alt_iff]
  | star r ih =>
    simp [nullable]
    exact RMatch.starNil

theorem deriv_iff {r : RE} {c : Char} {s : List Char} :
    RMatch (deriv r c) s ↔ RMatch r (c :: s) := by
  induction r generalizing s with
  | fail =>
    exact iff_of_false (fun h => rmatch_fail_elim h) (fun h => rmatch_fail_elim h)
  | eps =>
    simp only [deriv]
    exact iff_of_false (fun h => rmatch_fail_elim h) (by simp [rmatch_eps_iff])
  | cls p =>
    simp only [deriv]
    by_cases hc : p c = true
    · simp only [hc, if_true, rmatch_eps_iff, rmatch_cls_iff]
      constructor
      · rintro rfl
        exact ⟨c, rfl, hc⟩
      · rintro ⟨d, hd, _⟩
        injection hd with h₁ h₂
    · simp only [hc, if_false]
      refine iff_of_false (fun h => rmatch_fail_elim h) ?_
      intro h
      rcases rmatch_cls_iff.mp h with ⟨d, hd, hpd⟩
      injection hd with h₁ h₂
      subst h₁
      exact hc hpd
  | cat r₁ r₂ ih₁ ih₂ =>
    simp only [deriv]
    by_cases hn : nullable r₁ = true
    · rw [if_pos hn]
      rw [mkAlt_iff, rmatch_alt_iff, mkCat_iff]
      constructor
      · rintro (h | h)
        · rcases rmatch_cat_iff.mp h with ⟨s₁, s₂, rfl, h₁, h₂⟩
          exact (List.cons_append c s₁ s₂) ▸ RMatch.cat (ih₁.mp h₁) h₂
        · have h₀ : RMatch r₁ [] := nullable_iff.mp hn
          simpa using RMatch.cat h₀ (ih₂.mp h)
      · intro h
        rcases rmatch_cat_iff.mp h with ⟨s₁, s₂, hs, h₁, h₂⟩
        cases s₁ with
        | nil =>
          right
          apply ih₂.mpr
          rw [show c :: s = s₂ by simpa using hs]
          exact h₂
        | cons d t =>
          left
          injection hs with he₁ he₂
          subst he₁
          subst he₂
          exact RMatch.cat (ih₁.mpr h₁) h₂
    · rw [if_neg hn]
      rw [mkCat_iff]
      constructor
      · intro h
        rcases rmatch_cat_iff.mp h with ⟨s₁, s₂, rfl, h₁, h₂⟩
        exact (List.cons_append c s₁ s₂) ▸ RMatch.cat (ih₁.mp h₁) h₂
      · intro h
        rcases rmatch_cat_iff.mp h with ⟨s₁, s₂, hs, h₁, h₂⟩
        cases s₁ with
        | nil =>
          exact absurd (nullable_iff.mpr h₁) hn
        | cons d t =>
          injection hs with he₁ he₂
          subst he₁
          subst he₂
          exact RMatch.cat (ih₁.mpr h₁) h₂
  | alt r₁ r₂ ih₁ ih₂ =>
    simp only [deriv, mkAlt_iff, rmatch_alt_iff, ih₁, ih₂]
  | star r ih =>
    simp only [deriv, mkCat_iff]
    constructor
    · intro h
      rcases rmatch_cat_iff.mp h with ⟨s₁, s₂, rfl, h₁, h₂⟩
      exact RMatch.starCons (ih.mp h₁) h₂
    · intro h
      rcases rmatch_star_cons_iff.mp h with ⟨s₁, s₂, rfl, h₁, h₂⟩
      exact RMatch.cat (ih.mpr h₁) h₂

/-- The derivative matcher is sound and complete for the language semantics. -/
theorem reMatch_iff {r : RE} {s : List Char} : reMatch r s = true ↔ RMatch r s := by
  induction s generalizing r with
  | nil => exact nullable_iff
  | cons c t ih =>
    show nullable (List.foldl deriv (deriv r c) t) = true ↔ _
    exact (ih (r := deriv r c)).trans deriv_iff


/-! ### Properties of the flow -/

theorem pyEqInt_iff_numVal (p : PyVal) (k : Int) :
    pyEqInt p k = true ↔ pyNumVal p = some ((k : ℚ)) := by
  cases p with
  | pyNone => simp [pyEqInt, pyNumVal]
  | pyBool b =>
    cases b <;> simp only [pyEqInt, pyNumVal, beq_iff_eq, if_true, if_false,
      Option.some.injEq] <;> constructor <;> intro h <;> exact_mod_cast h
  | pyInt n =>
    simp only [pyEqInt, pyNumVal, beq_iff_eq, Option.some.injEq]
    constructor <;> intro h <;> exact_mod_cast h
  | pyFloat q => simp [pyEqInt, pyNumVal]
  | pyStr s => simp [pyEqInt, pyNumVal]
  | pyList l => simp [pyEqInt, pyNumVal]
  | pyDict d => simp [pyEqInt, pyNumVal]

/-- Which POST actions the submission flow emits: exactly one, to the fixed
endpoint, carrying the submitted URL. -/
theorem post_mem_analyze_flow (u : String) (http : HttpResult) (tgt body : String) :
    Act.post tgt body ∈ analyze_flow u http ↔ tgt = SPACE_API_URL ∧ body = u := by
  cases http with
  | transportError e => simp [analyze_flow]
  | response statusCode text jsonBody =>
    by_cases hc : (statusCode == 200) = true
    · rcases jsonBody with e | result
      · simp [analyze_flow, hc]
      · rcases hg : pyGet result "prediction" PyVal.pyNone with e | prediction
        · simp [analyze_flow, hc, hg]
        · by_cases h1 : pyEqInt prediction 1 = true
          · simp [analyze_flow, hc, hg, h1]
          · by_cases h0 : pyEqInt prediction 0 = true <;>
              simp [analyze_flow, hc, hg, h1, h0]
    · simp [analyze_flow, hc]

/-! ### Claim C1 -/

/-- C1 counterexample: a 200 response whose JSON body is
`\x7b"prediction": true\x7d` yields Malicious, not Unavailable — the claim's
"any other value or an absent field yields Unavailable" fails at the boolean
`true`, because line 103 of src/app.py tests `prediction == 1` and Python's
`True == 1` holds. -/
theorem C1_counterexample :
    predict "http://x" (.response 200 "\x7b\"prediction\": true\x7d"
        (.ok (.pyDict [("prediction", .pyBool true)]))) = Outcome.Malicious ∧
    predict "http://x" (.response 200 "\x7b\"prediction\": true\x7d"
        (.ok (.pyDict [("prediction", .pyBool true)]))) ≠ Outcome.Unavailable := by
  constructor
  · rfl
  · decide

/-- C1 (amended): for every 200 response whose body parses as a JSON object,
the outcome is decided by the numeric value of the `prediction` entry under
Python `==`: numerically 1 (so also `true` and `1.0`) yields Malicious,
numerically 0 (so also `false` and `0.0`) yields Benign, and a value with no
numeric interpretation — strings such as `"1"`/`"0"` are never coerced — or
an absent field yields Unavailable. -/
theorem C1_amended_thm (u t : String) (fields : List (String × PyVal)) :
    predict u (.response 200 t (.ok (.pyDict fields))) =
      (match pyNumVal ((fields.lookup "prediction").getD PyVal.pyNone) with
       | some q =>
           if q = 1 then Outcome.Malicious
           else if q = 0 then Outcome.Benign
           else Outcome.Unavailable
       | none => Outcome.Unavailable) := by
  have hcore : predict u (.response 200 t (.ok (.pyDict fields))) =
      (if pyEqInt ((fields.lookup "prediction").getD PyVal.pyNone) 1 = true then Outcome.Malicious
       else if pyEqInt ((fields.lookup "prediction").getD PyVal.pyNone) 0 = true then Outcome.Benign
       else Outcome.Unavailable) := rfl
  rw [hcore]
  rcases hp : (fields.lookup "prediction").getD PyVal.pyNone with _ | b | n | q | s | l | d
  · simp [pyEqInt, pyNumVal]
  · cases b <;> norm_num [pyEqInt, pyNumVal]
  · by_cases h1 : n = 1
    · simp [h1, pyEqInt, pyNumVal]
    · by_cases h0 : n = 0 <;>
        simp [h1, h0, pyEqInt, pyNumVal, Int.cast_eq_one, Int.cast_eq_zero]
  · by_cases h1 : q = 1
    · simp [h1, pyEqInt, pyNumVal]
    · by_cases h0 : q = 0 <;> simp [h1, h0, pyEqInt, pyNumVal]
  · simp [pyEqInt, pyNumVal]
  · simp [pyEqInt, pyNumVal]
  · simp [pyEqInt, pyNumVal]

/-! ### Claim C2 -/

/-- C2 counterexample: on the ApiError branch (here a 500 response) the flow
returns at line 95 of src/app.py before reaching the `st.json(\x7b"url":
url_input\x7d)` echo on line 111, so the submitted URL is not echoed back —
against the claim's "every outcome branch". -/
theorem C2_counterexample :
    predict "http://x" (.response 500 "server error" (.error "Expecting value"))
      = Outcome.ApiError 500 "server error" ∧
    Act.stJson "http://x" ∉
      analyze_flow "http://x" (.response 500 "server error" (.error "Expecting value")) := by
  constructor
  · rfl
  · decide

/-- C2 (amended): the submitted URL string is echoed back verbatim exactly on
the three-way outcome branches (Malicious, Benign, Unavailable); on the
RequestFailed and ApiError branches the flow returns early and no echo is
rendered. -/
theorem C2_amended_thm (url : String) (http : HttpResult) :
    Act.stJson url ∈ analyze_flow url http ↔
      (predict url http = Outcome.Malicious ∨ predict url http = Outcome.Benign ∨
       predict url http = Outcome.Unavailable) := by
  cases http with
  | transportError e => simp [analyze_flow, predict]
  | response statusCode text jsonBody =>
    by_cases hc : (statusCode == 200) = true
    · rcases jsonBody with e | result
      · simp [analyze_flow, predict, hc]
      · rcases hg : pyGet result "prediction" PyVal.pyNone with e | prediction
        · simp [analyze_flow, predict, hc, hg]
        · by_cases h1 : pyEqInt prediction 1 = true
          · simp [analyze_flow, predict, hc, hg, h1]
          · by_cases h0 : pyEqInt prediction 0 = true <;>
              simp [analyze_flow, predict, hc, hg, h1, h0]
    · simp [analyze_flow, predict, hc]

/-! ### Claim C3 -/

/-- C3 counterexample: a 201 response (a 2xx status) with a well-formed JSON
body is not parsed and classified — line 90 of src/app.py tests
`status_code == 200` exactly, so 201 lands on the ApiError branch. -/
theorem C3_counterexample :
    predict "http://x" (.response 201 "\x7b\"prediction\": 1\x7d"
        (.ok (.pyDict [("prediction", .pyInt 1)])))
      = Outcome.ApiError 201 "\x7b\"prediction\": 1\x7d" ∧
    predict "http://x" (.response 201 "\x7b\"prediction\": 1\x7d"
        (.ok (.pyDict [("prediction", .pyInt 1)])))
      ≠ Outcome.Malicious := by
  constructor
  · rfl
  · decide

/-- C3 (amended): for a response with status exactly 200 whose body parses as
a JSON object, the flow proceeds to the three-way outcome classification; for
every response with status ≠ 200 (not: non-2xx) it produces ApiError carrying
the status code and the raw body text, and never a three-way outcome. -/
theorem C3_amended_thm :
    (∀ (u : String) (statusCode : Nat) (text : String) (jsonBody : Except String PyVal),
       statusCode ≠ 200 →
       predict u (.response statusCode text jsonBody) = Outcome.ApiError statusCode text) ∧
    (∀ (u text : String) (fields : List (String × PyVal)),
       predict u (.response 200 text (.ok (.pyDict fields))) = Outcome.Malicious ∨
       predict u (.response 200 text (.ok (.pyDict fields))) = Outcome.Benign ∨
       predict u (.response 200 text (.ok (.pyDict fields))) = Outcome.Unavailable) := by
  constructor
  · intro u statusCode text jsonBody hne
    have hc : (statusCode == 200) = false := by simpa using hne
    simp [predict, hc]
  · intro u text fields
    have hcore : predict u (.response 200 text (.ok (.pyDict fields))) =
        (if pyEqInt ((fields.lookup "prediction").getD PyVal.pyNone) 1 = true then Outcome.Malicious
         else if pyEqInt ((fields.lookup "prediction").getD PyVal.pyNone) 0 = true then Outcome.Benign
         else Outcome.Unavailable) := rfl
    rw [hcore]
    by_cases h1 : pyEqInt ((fields.lookup "prediction").getD PyVal.pyNone) 1 = true
    · simp [h1]
    · by_cases h0 : pyEqInt ((fields.lookup "prediction").getD PyVal.pyNone) 0 = true <;>
        simp [h1, h0]

/-- C3 witness: the amended theorem applied at a concrete non-200 response. -/
theorem C3_witness :
    predict "http://x" (.response 500 "server error" (.error "boom"))
      = Outcome.ApiError 500 "server error" :=
  C3_amended_thm.1 "http://x" 500 "server error" (.error "boom") (by decide)

/-! ### Claim C4 -/

/-- C4: every transport failure (the `requests.post` call raising, with
`str(e)` as detail) and every 200 response whose body fails to parse as JSON
(`response.json()` raising) is caught by the `except` of src/app.py lines
96-98 and becomes a RequestFailed outcome whose detail is rendered to the
user with `st.error`.  In the model every flow function is total, which
reflects that no such failure escapes the handler and terminates the
process. -/
theorem C4_thm :
    (∀ (u e : String),
       predict u (.transportError e) = Outcome.RequestFailed e ∧
       Act.stError ("Request failed: " ++ e) ∈ analyze_flow u (.transportError e)) ∧
    (∀ (u text e : String),
       predict u (.response 200 text (.error e)) = Outcome.RequestFailed e ∧
       Act.stError ("Request failed: " ++ e) ∈ analyze_flow u (.response 200 text (.error e))) := by
  constructor
  · intro u e
    exact ⟨rfl, by simp [analyze_flow]⟩
  · intro u text e
    exact ⟨rfl, by simp [analyze_flow]⟩

/-! ### Claim C6 -/

/-- C6: the result of the URL-shape validator has no effect on the flow — the
enforcement at src/app.py lines 80-83 is commented out.  For any two
submitted strings on which `is_valid_url` disagrees, the POST is issued for
both and the outcome computation is identical. -/
theorem C6_thm (u₁ u₂ : String) (http : HttpResult)
    (hdiff : is_valid_url u₁ ≠ is_valid_url u₂) :
    Act.post SPACE_API_URL u₁ ∈ analyze_flow u₁ http ∧
    Act.post SPACE_API_URL u₂ ∈ analyze_flow u₂ http ∧
    predict u₁ http = predict u₂ http := by
  refine ⟨?_, ?_, rfl⟩ <;> exact (post_mem_analyze_flow _ _ _ _).mpr ⟨rfl, rfl⟩

/-- C6 witness: a shape-valid and a shape-invalid URL, same transport
failure, indistinguishable requests and outcomes. -/
theorem C6_witness :
    Act.post SPACE_API_URL "http://localhost"
      ∈ analyze_flow "http://localhost" (.transportError "x") ∧
    Act.post SPACE_API_URL "not a url"
      ∈ analyze_flow "not a url" (.transportError "x") ∧
    predict "http://localhost" (.transportError "x")
      = predict "not a url" (.transportError "x") :=
  C6_thm "http://localhost" "not a url" (.transportError "x") (by decide)

/-! ### Claim C8 -/

/-- C8: `is_valid_url` is total and pure — in the model it is a Lean
function into `Bool`, so on every input it terminates with one of the two
boolean values (the Python function raises no exception: the pattern is
fixed and valid, and malformed input simply fails to match), and equal
inputs give equal results. -/
theorem C8_thm (s : String) :
    (is_valid_url s = true ∨ is_valid_url s = false) ∧
    (∀ t : String, s = t → is_valid_url s = is_valid_url t) := by
  constructor
  · cases h : is_valid_url s
    · exact Or.inr rfl
    · exact Or.inl rfl
  · rintro t rfl
    rfl

/-- C8 witness: the theorem applied at a concrete input. -/
theorem C8_witness :
    (is_valid_url "ftp://10.0.0.1/file" = true ∨
     is_valid_url "ftp://10.0.0.1/file" = false) ∧
    is_valid_url "ftp://10.0.0.1/file" = is_valid_url "ftp://10.0.0.1/file" :=
  ⟨(C8_thm "ftp://10.0.0.1/file").1, (C8_thm "ftp://10.0.0.1/file").2 "ftp://10.0.0.1/file" rfl⟩

/-! ### Claim C10 -/

/-- C10: because lines 103-105 of src/app.py test numeric equality
(`prediction == 1`, `prediction == 0`), a 200 JSON response whose
`prediction` field is the boolean `true` or the float `1.0` yields Malicious
and one whose field is `false` or `0.0` yields Benign, rather than
Unavailable. -/
theorem C10_thm (u t : String) :
    predict u (.response 200 t (.ok (.pyDict [("prediction", .pyBool true)])))
      = Outcome.Malicious ∧
    predict u (.response 200 t (.ok (.pyDict [("prediction", .pyFloat 1)])))
      = Outcome.Malicious ∧
    predict u (.response 200 t (.ok (.pyDict [("prediction", .pyBool false)])))
      = Outcome.Benign ∧
    predict u (.response 200 t (.ok (.pyDict [("prediction", .pyFloat 0)])))
      = Outcome.Benign ∧
    predict u (.response 200 t (.ok (.pyDict [("prediction", .pyBool true)])))
      ≠ Outcome.Unavailable ∧
    predict u (.response 200 t (.ok (.pyDict [("prediction", .pyFloat 1)])))
      ≠ Outcome.Unavailable := by
  have h1 : predict u (.response 200 t (.ok (.pyDict [("prediction", .pyFloat 1)])))
      = Outcome.Malicious := by
    show (if pyEqInt (.pyFloat 1) 1 = true then Outcome.Malicious
          else if pyEqInt (.pyFloat 1) 0 = true then Outcome.Benign
          else Outcome.Unavailable) = Outcome.Malicious
    norm_num [pyEqInt]
  have h0 : predict u (.response 200 t (.ok (.pyDict [("prediction", .pyFloat 0)])))
      = Outcome.Benign := by
    show (if pyEqInt (.pyFloat 0) 1 = true then Outcome.Malicious
          else if pyEqInt (.pyFloat 0) 0 = true then Outcome.Benign
          else Outcome.Unavailable) = Outcome.Benign
    norm_num [pyEqInt]
  exact ⟨rfl, h1, rfl, h0, fun h => Outcome.noConfusion h,
    fun h => Outcome.noConfusion (h1.symm.trans h)⟩

/-! ### Claim C7 -/

theorem rmatch_upTo {p : Char → Bool} :
    ∀ (n : Nat) (g : List Char), g.length ≤ n → (∀ c ∈ g, p c = true) →
      RMatch (upTo (.cls p) n) g := by
  intro n
  induction n with
  | zero =>
    intro g hlen _
    have hg : g = [] := List.length_eq_zero.mp (Nat.le_zero.mp hlen)
    subst hg
    exact RMatch.eps
  | succ n ih =>
    intro g hlen hall
    cases g with
    | nil => exact RMatch.altL RMatch.eps
    | cons c t =>
      refine RMatch.altR ?_
      have hc : RMatch (.cls p) [c] := RMatch.cls (hall c (by simp))
      have ht : RMatch (upTo (.cls p) n) t :=
        ih t (by simpa using hlen) (fun d hd => hall d (by simp [hd]))
      exact RMatch.cat hc ht

theorem rmatch_dgroup {g : List Char} (hg : dottedGroup g) : RMatch dgroupRE g := by
  rcases hg with ⟨h1, h3, hd⟩
  cases g with
  | nil => simp at h1
  | cons c t =>
    have hc : RMatch (.cls digit09) [c] := RMatch.cls (hd c (by simp))
    have ht : RMatch (upTo (.cls digit09) 2) t :=
      rmatch_upTo 2 t (by simpa using h3) (fun d hdm => hd d (by simp [hdm]))
    exact RMatch.cat hc ht

theorem rmatch_ipv4 {g₁ g₂ g₃ g₄ : List Char}
    (h₁ : dottedGroup g₁) (h₂ : dottedGroup g₂) (h₃ : dottedGroup g₃) (h₄ : dottedGroup g₄) :
    RMatch ipv4RE (g₁ ++ '.' :: (g₂ ++ '.' :: (g₃ ++ '.' :: g₄))) := by
  have hdot : RMatch (litc '.') ['.'] := RMatch.cls (by decide)
  exact RMatch.cat (rmatch_dgroup h₁) (RMatch.cat hdot
    (RMatch.cat (rmatch_dgroup h₂) (RMatch.cat hdot
      (RMatch.cat (rmatch_dgroup h₃) (RMatch.cat hdot (rmatch_dgroup h₄))))))

/-- C7: `is_valid_url` accepts the three positive examples, rejects
`"not a url"`, and accepts every dotted quad of 1-3-digit groups as a host —
the pattern's `\d\x7b1,3\x7d` groups are not range-checked against 0-255, so
`"http://999.999.999.999"` passes. -/
theorem C7_thm :
    is_valid_url "https://example.com/path?q=1" = true ∧
    is_valid_url "http://localhost:8080" = true ∧
    is_valid_url "ftp://10.0.0.1/file" = true ∧
    is_valid_url "not a url" = false ∧
    is_valid_url "http://999.999.999.999" = true ∧
    (∀ g₁ g₂ g₃ g₄ : List Char,
      dottedGroup g₁ → dottedGroup g₂ → dottedGroup g₃ → dottedGroup g₄ →
      is_valid_url ⟨"http://".data ++ g₁ ++ ['.'] ++ g₂ ++ ['.'] ++ g₃ ++ ['.'] ++ g₄⟩ = true) := by
  refine ⟨by decide, by decide, by decide, by decide, by decide, ?_⟩
  intro g₁ g₂ g₃ g₄ h₁ h₂ h₃ h₄
  have hscheme : RMatch schemeRE ("http://".data) := reMatch_iff.mp (by decide)
  have hport : RMatch portRE [] := reMatch_iff.mp (by decide)
  have htrail : RMatch trailRE [] := reMatch_iff.mp (by decide)
  have hhost : RMatch hostRE (g₁ ++ '.' :: (g₂ ++ '.' :: (g₃ ++ '.' :: g₄))) :=
    RMatch.altR (RMatch.altR (rmatch_ipv4 h₁ h₂ h₃ h₄))
  have hurl : RMatch urlRE
      (("http://".data ++ ((g₁ ++ '.' :: (g₂ ++ '.' :: (g₃ ++ '.' :: g₄))) ++ [])) ++ []) :=
    RMatch.cat (RMatch.cat hscheme (RMatch.cat hhost hport)) htrail
  have hmatch : reMatch urlRE
      ("http://".data ++ g₁ ++ ['.'] ++ g₂ ++ ['.'] ++ g₃ ++ ['.'] ++ g₄) = true := by
    apply reMatch_iff.mpr
    simpa [List.append_assoc] using hurl
  have hunfold : is_valid_url ⟨"http://".data ++ g₁ ++ ['.'] ++ g₂ ++ ['.'] ++ g₃ ++ ['.'] ++ g₄⟩ =
      (reMatch urlRE ("http://".data ++ g₁ ++ ['.'] ++ g₂ ++ ['.'] ++ g₃ ++ ['.'] ++ g₄) ||
       ((("http://".data ++ g₁ ++ ['.'] ++ g₂ ++ ['.'] ++ g₃ ++ ['.'] ++ g₄).getLast? == some '\n') &&
        reMatch urlRE ("http://".data ++ g₁ ++ ['.'] ++ g₂ ++ ['.'] ++ g₃ ++ ['.'] ++ g₄).dropLast)) :=
    rfl
  rw [hunfold, hmatch, Bool.true_or]

/-- C7 witness: the universal part of the theorem applied to the four
concrete groups of `"http://999.999.999.999"`. -/
theorem C7_witness :
    is_valid_url ⟨"http://".data ++ ['9', '9', '9'] ++ ['.'] ++ ['9', '9', '9'] ++ ['.'] ++
      ['9', '9', '9'] ++ ['.'] ++ ['9', '9', '9']⟩ = true :=
  C7_thm.2.2.2.2.2 ['9', '9', '9'] ['9', '9', '9'] ['9', '9', '9'] ['9', '9', '9']
    (by refine ⟨by decide, by decide, ?_⟩; decide)
    (by refine ⟨by decide, by decide, ?_⟩; decide)
    (by refine ⟨by decide, by decide, ?_⟩; decide)
    (by refine ⟨by decide, by decide, ?_⟩; decide)

/-! ### Claim C5 -/

theorem rmatch_clsBound {P : Char → Bool} {r : RE} {s : List Char}
    (hb : clsBound P r) (h : RMatch r s) : ∀ c ∈ s, P c = true := by
  revert hb
  induction h with
  | eps => intro _; simp
  | cls hc =>
    intro hb d hd
    rw [List.mem_singleton.mp hd]
    exact hb _ hc
  | cat h₁ h₂ ih₁ ih₂ =>
    intro hb d hd
    rcases List.mem_append.mp hd with hm | hm
    · exact ih₁ hb.1 d hm
    · exact ih₂ hb.2 d hm
  | altL h ih => intro hb; exact ih hb.1
  | altR h ih => intro hb; exact ih hb.2
  | starNil => intro _; simp
  | starCons h₁ h₂ ih₁ ih₂ =>
    intro hb d hd
    rcases List.mem_append.mp hd with hm | hm
    · exact ih₁ hb d hm
    · exact ih₂ hb d hm

/-- A whitespace character (Python `\s`) is matched by none of the pattern's
named classes, and ASCII-lowercasing fixes it. -/
theorem pySpace_class_false {c : Char} (h : pySpace c = true) :
    alnumAZ09 c = false ∧ alnumDash c = false ∧ letterAZ c = false ∧
    digit09 c = false ∧ slashQuery c = false ∧ c.toLower = c := by
  have hm : c ∈ pySpaceChars := of_decide_eq_true h
  unfold pySpaceChars at hm
  fin_cases hm <;> exact (by decide)

/-- A control character is matched by none of the pattern's named classes
except `\S`, and ASCII-lowercasing fixes it. -/
theorem ctlChar_class_false {c : Char} (h : ctlChar c = true) :
    alnumAZ09 c = false ∧ alnumDash c = false ∧ letterAZ c = false ∧
    digit09 c = false ∧ slashQuery c = false ∧ c.toLower = c := by
  have hm : c ∈ ctlChars := of_decide_eq_true h
  unfold ctlChars at hm
  fin_cases hm <;> exact (by decide)

theorem litc_clsBound {Q : Char → Bool} (hfix : ∀ c, Q c = true → c.toLower = c)
    {a : Char} (ha : Q a.toLower = false) :
    clsBound (fun c => !Q c) (litc a) := by
  intro c hc
  have he : c.toLower = a.toLower := eq_of_beq hc
  cases hq : Q c with
  | false => simp [hq]
  | true =>
    exfalso
    have h1 : c.toLower = c := hfix c hq
    rw [h1] at he
    rw [he] at hq
    rw [hq] at ha
    cases ha

theorem chain_clsBound {P : Char → Bool} :
    ∀ cs : List Char, (∀ a ∈ cs, clsBound P (litc a)) → clsBound P (chainRE cs) := by
  intro cs
  induction cs with
  | nil => intro _; trivial
  | cons a t ih =>
    intro h
    exact ⟨h a (by simp), ih (fun b hb => h b (by simp [hb]))⟩

theorem upTo_clsBound {P : Char → Bool} {r : RE} (h : clsBound P r) :
    ∀ n, clsBound P (upTo r n) := by
  intro n
  induction n with
  | zero => trivial
  | succ n ih => exact ⟨trivial, h, ih⟩

/-- Everything before the trailing path group draws its characters from the
named classes and the literals of `"htpfs:/.loca"`; any `Q`-free bound on
those transfers to the whole of `hostPortRE`. -/
theorem hostPortRE_clsBound_of {Q : Char → Bool}
    (hfix : ∀ c, Q c = true → c.toLower = c)
    (h₁ : ∀ c, alnumAZ09 c = true → (!Q c) = true)
    (h₂ : ∀ c, alnumDash c = true → (!Q c) = true)
    (h₃ : ∀ c, letterAZ c = true → (!Q c) = true)
    (h₄ : ∀ c, digit09 c = true → (!Q c) = true)
    (hlit : ∀ a ∈ "htpfs:/.loca".data, Q a.toLower = false) :
    clsBound (fun c => !Q c) hostPortRE := by
  have hstr : ∀ cs : List Char, (∀ a ∈ cs, Q a.toLower = false) →
      clsBound (fun c => !Q c) (chainRE cs) :=
    fun cs h => chain_clsBound cs (fun a ha => litc_clsBound hfix (h a ha))
  have hmem : ∀ cs : List Char, (∀ a ∈ cs, a ∈ "htpfs:/.loca".data) →
      ∀ a ∈ cs, Q a.toLower = false :=
    fun cs hsub a ha => hlit a (hsub a ha)
  have hhttp : clsBound (fun c => !Q c) (strRE "http") :=
    hstr _ (hmem _ (by decide))
  have hftp : clsBound (fun c => !Q c) (strRE "ftp") :=
    hstr _ (hmem _ (by decide))
  have hsep : clsBound (fun c => !Q c) (strRE "://") :=
    hstr _ (hmem _ (by decide))
  have hlocal : clsBound (fun c => !Q c) (strRE "localhost") :=
    hstr _ (hmem _ (by decide))
  have hs : clsBound (fun c => !Q c) (litc 's') :=
    litc_clsBound hfix (hlit 's' (by decide))
  have hdot : clsBound (fun c => !Q c) (litc '.') :=
    litc_clsBound hfix (hlit '.' (by decide))
  have hcolon : clsBound (fun c => !Q c) (litc ':') :=
    litc_clsBound hfix (hlit ':' (by decide))
  have hcls₁ : clsBound (fun c => !Q c) (.cls alnumAZ09) := h₁
  have hcls₂ : clsBound (fun c => !Q c) (.cls alnumDash) := h₂
  have hcls₃ : clsBound (fun c => !Q c) (.cls letterAZ) := h₃
  have hcls₄ : clsBound (fun c => !Q c) (.cls digit09) := h₄
  have hlabel : clsBound (fun c => !Q c) labelRE :=
    ⟨hcls₁, ⟨trivial, upTo_clsBound hcls₂ 61, hcls₁⟩, hdot⟩
  have htld : clsBound (fun c => !Q c) tldRE :=
    ⟨⟨hcls₃, hcls₃, upTo_clsBound hcls₃ 4, trivial, hdot⟩,
     ⟨hcls₂, hcls₂, hcls₂, trivial, hdot⟩⟩
  have hdg : clsBound (fun c => !Q c) dgroupRE := ⟨hcls₄, upTo_clsBound hcls₄ 2⟩
  have hipv4 : clsBound (fun c => !Q c) ipv4RE :=
    ⟨hdg, hdot, hdg, hdot, hdg, hdot, hdg⟩
  exact ⟨⟨⟨hhttp, hftp⟩, ⟨trivial, hs⟩, hsep⟩,
    ⟨⟨⟨hlabel, hlabel⟩, htld⟩, hlocal, hipv4⟩,
    ⟨trivial, hcolon, hcls₄, hcls₄⟩⟩

/-- No character of a string accepted by the pattern body is whitespace:
every class and literal of the pattern excludes Python `\s`. -/
theorem urlRE_clsBound_space : clsBound nonSpace urlRE := by
  have hfix : ∀ c, pySpace c = true → c.toLower = c :=
    fun c h => (pySpace_class_false h).2.2.2.2.2
  have hof : ∀ (q : Char → Bool), (∀ c, pySpace c = true → q c = false) →
      ∀ c, q c = true → (!pySpace c) = true := by
    intro q hq c h
    cases hs : pySpace c with
    | false => rfl
    | true => rw [hq c hs] at h; cases h
  have hhp : clsBound (fun c => !pySpace c) hostPortRE :=
    hostPortRE_clsBound_of hfix
      (hof _ fun c h => (pySpace_class_false h).1)
      (hof _ fun c h => (pySpace_class_false h).2.1)
      (hof _ fun c h => (pySpace_class_false h).2.2.1)
      (hof _ fun c h => (pySpace_class_false h).2.2.2.1)
      (by decide)
  have hslash : clsBound (fun c => !pySpace c) (litc '/') :=
    litc_clsBound hfix (by decide)
  have htrail : clsBound (fun c => !pySpace c) trailRE :=
    ⟨⟨trivial, hslash⟩,
     hof _ (fun c h => (pySpace_class_false h).2.2.2.2.1),
     fun c h => h, fun c h => h⟩
  exact ⟨hhp, htrail⟩

/-- No character of a string accepted by the scheme-host-port part is a
control character: only the trailing `\S+` can match one. -/
theorem hostPortRE_clsBound_ctl : clsBound (fun c => !ctlChar c) hostPortRE := by
  have hfix : ∀ c, ctlChar c = true → c.toLower = c :=
    fun c h => (ctlChar_class_false h).2.2.2.2.2
  have hof : ∀ (q : Char → Bool), (∀ c, ctlChar c = true → q c = false) →
      ∀ c, q c = true → (!ctlChar c) = true := by
    intro q hq c h
    cases hs : ctlChar c with
    | false => rfl
    | true => rw [hq c hs] at h; cases h
  exact hostPortRE_clsBound_of hfix
    (hof _ fun c h => (ctlChar_class_false h).1)
    (hof _ fun c h => (ctlChar_class_false h).2.1)
    (hof _ fun c h => (ctlChar_class_false h).2.2.1)
    (hof _ fun c h => (ctlChar_class_false h).2.2.2.1)
    (by decide)

theorem dropLast_append_of_getLastEq {l : List Char} {x : Char} (h : l.getLast? = some x) :
    l = l.dropLast ++ [x] := by
  induction l with
  | nil => simp at h
  | cons a t ih =>
    cases t with
    | nil =>
      simp only [List.getLast?_singleton, Option.some.injEq] at h
      simp [h]
    | cons b u =>
      rw [List.getLast?_cons_cons] at h
      have ht := ih h
      calc a :: b :: u = a :: ((b :: u).dropLast ++ [x]) := by rw [← ht]
        _ = (a :: b :: u).dropLast ++ [x] := by simp

/-- C5 counterexample: `"http://example.com\n"` is accepted although it
contains a newline — a control character — that stands after the host, not
inside any trailing path segment (Python's `$` matches just before a final
newline).  The claim as stated demands `false` here. -/
theorem C5_counterexample :
    is_valid_url "http://example.com\n" = true ∧
    ctlChar '\n' = true ∧
    '\n' ∈ "http://example.com\n".data := by
  exact ⟨by decide, by decide, by decide⟩

/-- C5 (amended): `is_valid_url` rejects the empty string; and every accepted
string is, after discarding at most one final newline (accepted through
Python's `$`), whitespace-free — so a newline anywhere but as the very last
character forces rejection — and splits into a scheme-host-port prefix free
of control characters followed by the trailing path segment, so control
characters can appear only in the trailing path segment or as that single
final newline. -/
theorem C5_amended_thm :
    is_valid_url "" = false ∧
    (∀ s : String, is_valid_url s = true →
      ∃ core pre path : List Char,
        (s.data = core ∨ s.data = core ++ ['\n']) ∧
        core = pre ++ path ∧
        RMatch hostPortRE pre ∧
        RMatch trailRE path ∧
        (∀ c ∈ core, pySpace c = false) ∧
        (∀ c ∈ pre, ctlChar c = false)) := by
  constructor
  · decide
  · intro s hs
    have hcases : reMatch urlRE s.data = true ∨
        (s.data.getLast? = some '\n' ∧ reMatch urlRE s.data.dropLast = true) := by
      rcases Bool.or_eq_true_iff.mp hs with h | h
      · exact Or.inl h
      · rcases Bool.and_eq_true_iff.mp h with ⟨h₁, h₂⟩
        exact Or.inr ⟨eq_of_beq h₁, h₂⟩
    have hmain : ∀ core : List Char, RMatch urlRE core →
        ∃ pre path : List Char,
          core = pre ++ path ∧ RMatch hostPortRE pre ∧ RMatch trailRE path ∧
          (∀ c ∈ core, pySpace c = false) ∧ (∀ c ∈ pre, ctlChar c = false) := by
      intro core hm
      obtain ⟨pre, path, hsplit, hpre, hpath⟩ := rmatch_cat_iff.mp hm
      refine ⟨pre, path, hsplit, hpre, hpath, ?_, ?_⟩
      · intro c hc
        have := rmatch_clsBound urlRE_clsBound_space hm c hc
        simpa [nonSpace] using this
      · intro c hc
        have := rmatch_clsBound hostPortRE_clsBound_ctl hpre c hc
        simpa using this
    rcases hcases with h | ⟨hlast, h⟩
    · obtain ⟨pre, path, hsplit, hpre, hpath, hws, hctl⟩ :=
        hmain s.data (reMatch_iff.mp h)
      exact ⟨s.data, pre, path, Or.inl rfl, hsplit, hpre, hpath, hws, hctl⟩
    · obtain ⟨pre, path, hsplit, hpre, hpath, hws, hctl⟩ :=
        hmain s.data.dropLast (reMatch_iff.mp h)
      exact ⟨s.data.dropLast, pre, path,
        Or.inr (dropLast_append_of_getLastEq hlast), hsplit, hpre, hpath, hws, hctl⟩

/-- C5 witness: the amended theorem applied at the accepted input
`"http://localhost"`. -/
theorem C5_witness :
    is_valid_url "" = false ∧
    (∃ core pre path : List Char,
      ("http://localhost".data = core ∨ "http://localhost".data = core ++ ['\n']) ∧
      core = pre ++ path ∧
      RMatch hostPortRE pre ∧
      RMatch trailRE path ∧
      (∀ c ∈ core, pySpace c = false) ∧
      (∀ c ∈ pre, ctlChar c = false)) :=
  ⟨C5_amended_thm.1, C5_amended_thm.2 "http://localhost" (by decide)⟩

/-! ### Claim C9 -/

/-- C9: in every state of the navigation model, a run of `main` emits an
HTTP POST exactly when the prediction view is selected and the submit button
was clicked in that run; in particular rendering the informational view
never issues a network call. -/
theorem C9_thm (sel : Page) (clicked : Bool) (u : String) (http : HttpResult)
    (todayStr yearStr : String) :
    (∃ tgt body, Act.post tgt body ∈ (main sel clicked u http todayStr yearStr).2) ↔
      (sel = Page.urlPrediction ∧ clicked = true) := by
  cases sel <;> cases clicked <;>
    simp [main, info_page, prediction_page, post_mem_analyze_flow]

end URLClassif
